import Mathlib

/-!
Verification of the authentication / session / redirect core
(src/server/login.rs and src/server/redirect_service.rs).

Bytes are modelled as `Nat` values below 256; strings as Lean `String`.
Functions from the two source files are translated directly.  External
collaborators (the `ring` crypto primitives, `rustc_serialize` hex
decoding, the `http`/`hyper` header and URI types, the session store,
the `util` response constructors and the directory-auth client) are not
part of the two source files; they are modelled from the specification
at their interface boundary, and each such definition says so in its
doc comment.
-/

namespace Octobot

/-! ## Byte-level primitives -/

/-- Truncation to a 32-bit word. -/
def w32 (n : Nat) : Nat := n % 4294967296

/-- 32-bit right rotation. -/
def rotr (n x : Nat) : Nat := w32 ((x >>> n) ||| (x <<< (32 - n)))

/-- Big-endian bytes of a 32-bit word; each emitted byte is reduced mod 256. -/
def wordBytes (w : Nat) : List Nat :=
  [(w / 16777216) % 256, (w / 65536) % 256, (w / 256) % 256, w % 256]

/-- Big-endian byte expansion of a list of 32-bit words. -/
def wordsToBytes : List Nat → List Nat
  | [] => []
  | w :: ws => wordBytes w ++ wordsToBytes ws

/-- Pack big-endian groups of four bytes into 32-bit words. -/
def bytesToWords : List Nat → List Nat
  | a :: b :: c :: d :: rest =>
      ((a % 256) * 16777216 + (b % 256) * 65536 + (c % 256) * 256 + d % 256)
        :: bytesToWords rest
  | _ => []

/-- Pointwise xor of two byte lists (the PBKDF2 block accumulator). -/
def listXor (a b : List Nat) : List Nat := List.zipWith (fun x y => x ^^^ y) a b

/-! ## SHA-256 (Modelled from the spec: the "256-bit secure hash" underlying
digest used by the credential verifier lives in the external `ring` crate,
not in the two source files; it is reproduced here as the standard FIPS 180-4
SHA-256 algorithm.) -/

/-- SHA-256 working state: the eight hash words. -/
structure Sha256St where
  a : Nat
  b : Nat
  c : Nat
  d : Nat
  e : Nat
  f : Nat
  g : Nat
  h : Nat

def sha256Init : Sha256St :=
  ⟨1779033703, 3144134277, 1013904242, 2773480762,
   1359893119, 2600822924, 528734635, 1541459225⟩

/-- The 64 SHA-256 round constants (decimal). -/
def sha256K : List Nat :=
  [1116352408, 1899447441, 3049323471, 3921009573, 961987163,
   1508970993, 2453635748, 2870763221, 3624381080, 310598401,
   607225278, 1426881987, 1925078388, 2162078206, 2614888103,
   3248222580, 3835390401, 4022224774, 264347078, 604807628,
   770255983, 1249150122, 1555081692, 1996064986, 2554220882,
   2821834349, 2952996808, 3210313671, 3336571891, 3584528711,
   113926993, 338241895, 666307205, 773529912, 1294757372,
   1396182291, 1695183700, 1986661051, 2177026350, 2456956037,
   2730485921, 2820302411, 3259730800, 3345764771, 3516065817,
   3600352804, 4094571909, 275423344, 430227734, 506948616,
   659060556, 883997877, 958139571, 1322822218, 1537002063,
   1747873779, 1955562222, 2024104815, 2227730452, 2361852424,
   2428436474, 2756734187, 3204031479, 3329325298]

def bigSigma0 (x : Nat) : Nat := rotr 2 x ^^^ rotr 13 x ^^^ rotr 22 x

def bigSigma1 (x : Nat) : Nat := rotr 6 x ^^^ rotr 11 x ^^^ rotr 25 x

def smallSigma0 (x : Nat) : Nat := rotr 7 x ^^^ rotr 18 x ^^^ (x >>> 3)

def smallSigma1 (x : Nat) : Nat := rotr 17 x ^^^ rotr 19 x ^^^ (x >>> 10)

def chFn (x y z : Nat) : Nat := (x &&& y) ^^^ ((x ^^^ 4294967295) &&& z)

def majFn (x y z : Nat) : Nat := (x &&& y) ^^^ (x &&& z) ^^^ (y &&& z)

/-- Extend the 16-word message block to the 64-word schedule. -/
def extendW (w : Array Nat) : Nat → Array Nat
  | 0 => w
  | Nat.succ n =>
      let i := w.size
      let nw := w32 (smallSigma1 (w.getD (i - 2) 0) + w.getD (i - 7) 0 +
                     smallSigma0 (w.getD (i - 15) 0) + w.getD (i - 16) 0)
      extendW (w.push nw) n

/-- One SHA-256 compression round. -/
def sha256Round (k wv : Nat) (s : Sha256St) : Sha256St :=
  let t1 := w32 (s.h + bigSigma1 s.e + chFn s.e s.f s.g + k + wv)
  let t2 := w32 (bigSigma0 s.a + majFn s.a s.b s.c)
  ⟨w32 (t1 + t2), s.a, s.b, s.c, w32 (s.d + t1), s.e, s.f, s.g⟩

/-- Compress one 64-byte block into the running state. -/
def sha256Block (st : Sha256St) (block : List Nat) : Sha256St :=
  let ws := extendW (Array.mk (bytesToWords block)) 48
  let fin := (List.range 64).foldl
    (fun s i => sha256Round (sha256K.getD i 0) (ws.getD i 0) s) st
  ⟨w32 (st.a + fin.a), w32 (st.b + fin.b), w32 (st.c + fin.c), w32 (st.d + fin.d),
   w32 (st.e + fin.e), w32 (st.f + fin.f), w32 (st.g + fin.g), w32 (st.h + fin.h)⟩

/-- Big-endian 64-bit length field of the SHA-256 padding. -/
def int64be (n : Nat) : List Nat :=
  [(n / 72057594037927936) % 256, (n / 281474976710656) % 256,
   (n / 1099511627776) % 256, (n / 4294967296) % 256,
   (n / 16777216) % 256, (n / 65536) % 256, (n / 256) % 256, n % 256]

/-- SHA-256 padding: a 0x80 byte, zeros to 56 mod 64, then the bit length. -/
def sha256pad (msg : List Nat) : List Nat :=
  let len := msg.length
  msg ++ 128 :: List.replicate ((119 - len % 64) % 64) 0 ++ int64be (8 * len)

/-- Split a byte list into 64-byte blocks (fuel-driven, fuel = length). -/
def toBlocksAux : Nat → List Nat → List (List Nat)
  | 0, _ => []
  | _, [] => []
  | Nat.succ n, l => l.take 64 :: toBlocksAux n (l.drop 64)

def toBlocks (l : List Nat) : List (List Nat) := toBlocksAux l.length l

/-- SHA-256 of a byte list. -/
def sha256 (msg : List Nat) : List Nat :=
  let st := (toBlocks (sha256pad msg)).foldl sha256Block sha256Init
  wordsToBytes [st.a, st.b, st.c, st.d, st.e, st.f, st.g, st.h]

/-! ## HMAC-SHA256 and PBKDF2 (Modelled from the spec: the "iterated,
memory-light key-derivation function" is `ring::pbkdf2` with
PBKDF2_HMAC_SHA256, external to the two source files; reproduced here as
the standard RFC 2104 / RFC 2898 algorithms.) -/

/-- HMAC-SHA256 with block size 64. -/
def hmacSha256 (key msg : List Nat) : List Nat :=
  let k0 := if 64 < key.length then sha256 key else key
  let k1 := k0 ++ List.replicate (64 - k0.length) 0
  sha256 ((k1.map (fun b => b ^^^ 92)) ++
          sha256 ((k1.map (fun b => b ^^^ 54)) ++ msg))

/-- Big-endian 32-bit block index of PBKDF2. -/
def int32be (i : Nat) : List Nat :=
  [(i / 16777216) % 256, (i / 65536) % 256, (i / 256) % 256, i % 256]

/-- The xor-accumulating iteration of a PBKDF2 block. -/
def pbkdf2Loop (password : List Nat) : List Nat → List Nat → Nat → List Nat
  | _, acc, 0 => acc
  | u, acc, Nat.succ n =>
      let u2 := hmacSha256 password u
      pbkdf2Loop password u2 (listXor acc u2) n

/-- One PBKDF2 output block `F(password, salt, c, i)`. -/
def pbkdf2Block (password salt : List Nat) (c i : Nat) : List Nat :=
  let u1 := hmacSha256 password (salt ++ int32be i)
  pbkdf2Loop password u1 u1 (c - 1)

/-- Modelled from the spec: `ring::pbkdf2::derive` filling a
`CREDENTIAL_LEN = SHA256_OUTPUT_LEN = 32`-byte output buffer; since the
requested length equals the digest length a single block is produced. -/
def pbkdf2_derive (iterations : Nat) (salt password : List Nat) : List Nat :=
  List.take 32 (pbkdf2Block password salt iterations 1)

/-- Modelled from the spec: `ring::pbkdf2::verify` "re-derives under
identical parameters and returns true only on exact byte-for-byte match"
(a length mismatch therefore also fails). -/
def pbkdf2_verify (iterations : Nat) (salt password previously : List Nat) : Bool :=
  pbkdf2_derive iterations salt password == previously

/-! ## Hex encoding (Modelled from the spec: the `rustc_serialize`
functions `ToHex`/`FromHex`, external to the two source files — "lowercase hex, two
characters per byte", decoding failing on a non-hex digit or odd length.) -/

def hexDigit (n : Nat) : Char := "0123456789abcdef".toList.getD n 'x'

def hexVal (c : Char) : Option Nat :=
  if '0' ≤ c ∧ c ≤ '9' then some (c.toNat - 48)
  else if 'a' ≤ c ∧ c ≤ 'f' then some (c.toNat - 87)
  else if 'A' ≤ c ∧ c ≤ 'F' then some (c.toNat - 55)
  else none

def toHexChars : List Nat → List Char
  | [] => []
  | b :: bs => hexDigit (b / 16) :: hexDigit (b % 16) :: toHexChars bs

def fromHexChars : List Char → Option (List Nat)
  | [] => some []
  | [_] => none
  | c1 :: c2 :: rest =>
      match hexVal c1, hexVal c2, fromHexChars rest with
      | some hi, some lo, some bs => some ((hi * 16 + lo) :: bs)
      | _, _, _ => none

def to_hex (bs : List Nat) : String := String.mk (toHexChars bs)

def from_hex (s : String) : Option (List Nat) := fromHexChars s.toList

/-- UTF-8 bytes of a string (Rust `str::as_bytes`). -/
def strBytes (s : String) : List Nat := s.toUTF8.toList.map (fun b => b.toNat)

/-! ## The credential verifier (src/server/login.rs) -/

/-- Constant `pbdkf2_iterations` from login.rs (source spelling kept): 100,000. -/
def pbdkf2_iterations : Nat := 100000

/-- Translation of `store_password` from login.rs: derive a 32-byte PBKDF2 hash of the
password under the salt, hex-encode it. -/
def store_password (pass salt : String) : String :=
  to_hex (pbkdf2_derive pbdkf2_iterations (strBytes salt) (strBytes pass))

/-- Translation of `verify_password` from login.rs: hex-decode the stored hash, fail closed
on a decode error, otherwise verify by re-derivation. -/
def verify_password (pass salt pass_hash : String) : Bool :=
  match from_hex pass_hash with
  | none => false
  | some h => pbkdf2_verify pbdkf2_iterations (strBytes salt) (strBytes pass) h

/-! ## Byte-range and length lemmas -/

theorem wordsToBytes_lt {b : Nat} : ∀ ws : List Nat, b ∈ wordsToBytes ws → b < 256 := by
  intro ws hb
  induction ws with
  | nil => simp [wordsToBytes] at hb
  | cons w ws ih =>
      simp only [wordsToBytes, wordBytes, List.mem_append, List.mem_cons,
        List.not_mem_nil, or_false] at hb
      rcases hb with hb | hb
      · rcases hb with h | h | h | h <;> subst h <;>
          exact Nat.mod_lt _ (by norm_num)
      · exact ih hb

theorem sha256_lt {b : Nat} {msg : List Nat} (hb : b ∈ sha256 msg) : b < 256 :=
  wordsToBytes_lt _ hb

theorem wordsToBytes_length : ∀ ws : List Nat, (wordsToBytes ws).length = 4 * ws.length := by
  intro ws
  induction ws with
  | nil => simp [wordsToBytes]
  | cons w ws ih =>
      simp [wordsToBytes, wordBytes, ih]
      omega

theorem sha256_length (msg : List Nat) : (sha256 msg).length = 32 := by
  simp [sha256, wordsToBytes_length]

theorem hmacSha256_lt {b : Nat} {key msg : List Nat} (hb : b ∈ hmacSha256 key msg) :
    b < 256 := sha256_lt hb

theorem hmacSha256_length (key msg : List Nat) : (hmacSha256 key msg).length = 32 :=
  sha256_length _

theorem listXor_lt {a b : List Nat} (ha : ∀ x ∈ a, x < 256) (hb : ∀ x ∈ b, x < 256) :
    ∀ x ∈ listXor a b, x < 256 := by
  intro x hx
  induction a generalizing b with
  | nil => simp [listXor] at hx
  | cons y ys ih =>
      cases b with
      | nil => simp [listXor] at hx
      | cons z zs =>
          simp only [listXor, List.zipWith_cons_cons, List.mem_cons] at hx
          rcases hx with h | h
          · subst h
            have h8 : (256 : Nat) = 2 ^ 8 := by norm_num
            rw [h8]
            exact Nat.xor_lt_two_pow (h8 ▸ ha y (by simp)) (h8 ▸ hb z (by simp))
          · exact ih (fun x hx => ha x (List.mem_cons_of_mem _ hx))
              (fun x hx => hb x (List.mem_cons_of_mem _ hx)) h

theorem listXor_length (a b : List Nat) :
    (listXor a b).length = min a.length b.length := by
  simp [listXor]

theorem pbkdf2Loop_lt {password : List Nat} :
    ∀ (n : Nat) (u acc : List Nat), (∀ x ∈ acc, x < 256) →
      ∀ x ∈ pbkdf2Loop password u acc n, x < 256 := by
  intro n
  induction n with
  | zero => intro u acc hacc x hx; exact hacc x hx
  | succ n ih =>
      intro u acc hacc x hx
      simp only [pbkdf2Loop] at hx
      exact ih _ _ (listXor_lt hacc (fun y hy => hmacSha256_lt hy)) x hx

theorem pbkdf2Loop_length {password : List Nat} :
    ∀ (n : Nat) (u acc : List Nat), acc.length = 32 →
      (pbkdf2Loop password u acc n).length = 32 := by
  intro n
  induction n with
  | zero => intro u acc h; exact h
  | succ n ih =>
      intro u acc h
      simp only [pbkdf2Loop]
      exact ih _ _ (by rw [listXor_length, h, hmacSha256_length]; omega)

theorem pbkdf2_derive_lt {c : Nat} {salt password : List Nat} :
    ∀ b ∈ pbkdf2_derive c salt password, b < 256 := by
  intro b hb
  have hb2 : b ∈ pbkdf2Block password salt c 1 := List.mem_of_mem_take hb
  simp only [pbkdf2Block] at hb2
  exact pbkdf2Loop_lt _ _ _ (fun y hy => hmacSha256_lt hy) b hb2

theorem pbkdf2_derive_length (c : Nat) (salt password : List Nat) :
    (pbkdf2_derive c salt password).length = 32 := by
  have h : (pbkdf2Block password salt c 1).length = 32 := by
    simp only [pbkdf2Block]
    exact pbkdf2Loop_length _ _ _ (hmacSha256_length _ _)
  simp [pbkdf2_derive, h]

/-! ## Hex roundtrip -/

theorem hexVal_hexDigit : ∀ n, n < 16 → hexVal (hexDigit n) = some n := by decide

theorem fromHex_toHex : ∀ bs : List Nat, (∀ b ∈ bs, b < 256) →
    fromHexChars (toHexChars bs) = some bs := by
  intro bs hbs
  induction bs with
  | nil => simp [toHexChars, fromHexChars]
  | cons b bs ih =>
      have hb : b < 256 := hbs b (by simp)
      have hdiv : b / 16 < 16 := Nat.div_lt_of_lt_mul (by omega)
      have hmod : b % 16 < 16 := Nat.mod_lt _ (by norm_num)
      simp only [toHexChars, fromHexChars, hexVal_hexDigit _ hdiv,
        hexVal_hexDigit _ hmod, ih (fun x hx => hbs x (List.mem_cons_of_mem _ hx))]
      have : b / 16 * 16 + b % 16 = b := by omega
      rw [this]

/-! ## HTTP data model (Modelled from the spec: the `hyper`/`http` request,
response and header types and the `util` response constructors live outside
the two source files; responses are modelled by their status, body and
`Location` header — the parts the wire contract in the spec names.) -/

structure Response where
  status : Nat
  body : String
  location : Option String
deriving DecidableEq

/-- Modelled from the spec: `util::new_empty_resp` — a response with the
given status and an empty body. -/
def new_empty_resp (status : Nat) : Response := ⟨status, "", none⟩

/-- Modelled from the spec: `util::new_msg_resp` — a response with the given
status and message body. -/
def new_msg_resp (status : Nat) (msg : String) : Response := ⟨status, msg, none⟩

/-- Modelled from the spec: `util::new_json_resp` — a `200` response carrying
a JSON body. -/
def new_json_resp (body : String) : Response := ⟨200, body, none⟩

/-- Modelled from the spec: `Handler::respond_with` of the handler framework —
a response with the given status and message body. -/
def respond_with (status : Nat) (msg : String) : Response := ⟨status, msg, none⟩

/-- A request as the handlers see it: named headers carrying raw byte
values (hyper stores header names lowercased; lookups here use the
lowercase name, matching the constants `"session"` and `HOST`). -/
structure HttpRequest where
  headers : List (String × List Nat)

/-- Modelled from the spec: `HeaderMap::get` — the first header whose name
matches. -/
def headerGet (req : HttpRequest) (name : String) : Option (List Nat) :=
  (req.headers.find? (fun p => p.1 == name)).map (fun p => p.2)

/-! ## Lossy UTF-8 decoding (`String::from_utf8_lossy`, Rust std, external
to the two source files; reproduced as the standard maximal-subpart
replacement decoder.) -/

/-- A UTF-8 continuation byte. -/
def utf8Cont (b : Nat) : Bool := 128 ≤ b && b < 192

/-- The replacement character U+FFFD. -/
def replChar : Char := Char.ofNat 65533

def utf8LossyAux : Nat → List Nat → List Char
  | 0, _ => []
  | _, [] => []
  | Nat.succ n, b :: rest =>
    if b < 128 then Char.ofNat b :: utf8LossyAux n rest
    else if 194 ≤ b && b ≤ 223 then
      match rest with
      | [] => [replChar]
      | b2 :: rest2 =>
        if utf8Cont b2 then
          Char.ofNat ((b - 192) * 64 + (b2 - 128)) :: utf8LossyAux n rest2
        else replChar :: utf8LossyAux n rest
    else if 224 ≤ b && b ≤ 239 then
      match rest with
      | [] => [replChar]
      | b2 :: rest2 =>
        if (if b = 224 then 160 ≤ b2 && b2 < 192
            else if b = 237 then 128 ≤ b2 && b2 < 160
            else utf8Cont b2) then
          match rest2 with
          | [] => [replChar]
          | b3 :: rest3 =>
            if utf8Cont b3 then
              Char.ofNat ((b - 224) * 4096 + (b2 - 128) * 64 + (b3 - 128))
                :: utf8LossyAux n rest3
            else replChar :: utf8LossyAux n rest2
        else replChar :: utf8LossyAux n rest
    else if 240 ≤ b && b ≤ 244 then
      match rest with
      | [] => [replChar]
      | b2 :: rest2 =>
        if (if b = 240 then 144 ≤ b2 && b2 < 192
            else if b = 244 then 128 ≤ b2 && b2 < 144
            else utf8Cont b2) then
          match rest2 with
          | [] => [replChar]
          | b3 :: rest3 =>
            if utf8Cont b3 then
              match rest3 with
              | [] => [replChar]
              | b4 :: rest4 =>
                if utf8Cont b4 then
                  Char.ofNat ((b - 240) * 262144 + (b2 - 128) * 4096 +
                              (b3 - 128) * 64 + (b4 - 128))
                    :: utf8LossyAux n rest4
                else replChar :: utf8LossyAux n rest3
            else replChar :: utf8LossyAux n rest2
        else replChar :: utf8LossyAux n rest
    else replChar :: utf8LossyAux n rest

/-- Rust `String::from_utf8_lossy` over a byte list. -/
def utf8Lossy (bs : List Nat) : String := String.mk (utf8LossyAux bs.length bs)

/-! ## Session store (Modelled from the spec: the Session Store collaborator
`crate::server::sessions::Sessions` is external to the two source files; it
is modelled by its three-operation contract — the set of currently valid
session identifiers.) -/

def Sessions : Type := List String

/-- Modelled from the spec: `isValid(id)` — pure membership query. -/
def is_valid_session (st : Sessions) (id : String) : Bool := st.contains id

/-- Modelled from the spec: `removeSession(id)` — idempotent removal. -/
def remove_session (st : Sessions) (id : String) : Sessions :=
  st.filter (fun s => s ≠ id)

/-- Modelled from the spec: `newSession()` registers a freshly minted id. -/
def new_session (st : Sessions) (id : String) : Sessions := id :: st

/-! ## Session handlers and filter (src/server/login.rs) -/

/-- Translation of `get_session` from login.rs: the bytes of the `session`
header, decoded
lossily as UTF-8; absent header gives `none`. -/
def get_session (req : HttpRequest) : Option String :=
  (headerGet req "session").map utf8Lossy

/-- Translation of `invalid_session` from login.rs: `403`, body `"Invalid session"`. -/
def invalid_session : Response := new_msg_resp 403 "Invalid session"

/-- Translation of `LogoutHandler::handle` from login.rs; the store argument and returned
store stand for the shared session-store state. -/
def logoutHandle (st : Sessions) (req : HttpRequest) : Response × Sessions :=
  match get_session req with
  | none => (invalid_session, st)
  | some sess => (new_json_resp "\x7b\x7d", remove_session st sess)

/-- Translation of `SessionCheckHandler::handle` from login.rs. -/
def sessionCheckHandle (st : Sessions) (req : HttpRequest) : Response :=
  match get_session req with
  | none => invalid_session
  | some sess =>
      if is_valid_session st sess then respond_with 200 "" else invalid_session

/-- The filter outcome of the handler framework: continue the pipeline or
halt with a substitute response. -/
inductive FilterResult where
  | Continue : FilterResult
  | Halt : Response → FilterResult
deriving DecidableEq

/-- Translation of `LoginSessionFilter::filter` from login.rs. -/
def loginSessionFilter (st : Sessions) (req : HttpRequest) : FilterResult :=
  match get_session req with
  | none => FilterResult.Halt invalid_session
  | some sess =>
      if is_valid_session st sess then FilterResult.Continue
      else FilterResult.Halt invalid_session

/-! ## Login handler (src/server/login.rs) -/

structure LoginRequest where
  username : String
  password : String

structure AdminIdentity where
  name : String
  salt : String
  pass_hash : String

/-- Modelled from the spec: the directory-service configuration block; its
contents are only ever passed through to the collaborator. -/
structure LdapConfig where
  url : String

structure Config where
  admin : Option AdminIdentity
  ldap : Option LdapConfig

/-- The JSON body `{"session": "<id>"}` produced by `json!` in login.rs. -/
def sessionJson (sid : String) : String :=
  "\x7b\"session\":\"" ++ sid ++ "\"\x7d"

/-- The result of one login attempt: the internal outcome (`none` =
Unknown, `some true` = Authenticated, `some false` = Rejected), whether the
directory-service collaborator was invoked, and the response. -/
structure LoginResult where
  outcome : Option Bool
  ldapConsulted : Bool
  resp : Response
deriving DecidableEq

/-- Translation of `LoginHandler::handle` from login.rs (body already parsed into a
`LoginRequest`; `ldapAuth` is the external `ldap_auth::auth` collaborator
and `sid` the identifier the session store mints on success). -/
def loginHandle (config : Config) (ldapAuth : String → String → LdapConfig → Except String Bool)
    (sid : String) (login_req : LoginRequest) : LoginResult :=
  let success : Option Bool :=
    match config.admin with
    | some admin =>
        if admin.name == login_req.username then
          if verify_password login_req.password admin.salt admin.pass_hash then
            some true
          else
            some false
        else none
    | none => none
  let step : Option Bool × Bool :=
    if success.isNone then
      match config.ldap with
      | some ldap =>
          match ldapAuth login_req.username login_req.password ldap with
          | Except.ok true => (some true, true)
          | Except.ok false => (success, true)
          | Except.error _ => (success, true)
      | none => (success, false)
    else (success, false)
  let resp :=
    if step.1 == some true then new_json_resp (sessionJson sid)
    else new_empty_resp 401
  ⟨step.1, step.2, resp⟩

/-! ## Redirect service (src/server/redirect_service.rs) -/

/-- The request-target view the rewriter reads (the accessors of
`hyper::Uri` that `rewrite_uri` calls: `host()`, `port_part()`, `path()`,
`query()`). -/
structure Uri where
  host : Option String
  port : Option Nat
  path : String
  query : Option String

/-- Translation of `RedirectService::maybe_add_port` from
redirect_service.rs: if the request carried an explicit port, append the
configured HTTPS port, not the port of the request. -/
def maybe_add_port (https_port : Nat) (new_url : String) (req_port : Option Nat) : String :=
  if req_port.isSome then new_url ++ (":" ++ toString https_port) else new_url

/-- Translation of `RedirectService::rewrite_uri` from redirect_service.rs. -/
def rewrite_uri (https_port : Nat) (uri : Uri) (host_header : Option Uri) : String :=
  let new_url := "https://"
  let new_url :=
    match uri.host with
    | some host => maybe_add_port https_port (new_url ++ host) uri.port
    | none =>
        match host_header with
        | some hh =>
            match hh.host with
            | some host => maybe_add_port https_port (new_url ++ host) hh.port
            | none => new_url
        | none => new_url
  let new_url := new_url ++ uri.path
  match uri.query with
  | some q => new_url ++ ("?" ++ q)
  | none => new_url

/-- Modelled from the spec: `http::HeaderValue::to_str` — succeeds only when
every byte is visible ASCII or tab. -/
def headerToStr (bs : List Nat) : Option String :=
  if bs.all (fun b => b == 9 || (32 ≤ b && b < 127)) then
    some (String.mk (bs.map Char.ofNat))
  else none

/-- Translation of `get_host_header` from redirect_service.rs; `parseUriStr` stands for the
external `str::parse::<hyper::Uri>` collaborator. -/
def get_host_header (parseUriStr : String → Option Uri) (headers : HttpRequest) : Option Uri :=
  ((headerGet headers "host").bind headerToStr).bind parseUriStr

/-- Modelled from the spec: the computed string "must be validated as a
well-formed header value" (`http::HeaderValue::from_str`) — every character
visible, i.e. tab or at least 0x20 and not DEL. -/
def is_valid_header_value (s : String) : Bool :=
  s.toList.all (fun c => c.toNat == 9 || (32 ≤ c.toNat && c.toNat != 127))

/-- Translation of `RedirectService::handle` from redirect_service.rs: rewrite the URI,
validate it as a `Location` header value, answer `301` with the header or
`500` on validation failure. -/
def redirectHandle (https_port : Nat) (parseUriStr : String → Option Uri)
    (uri : Uri) (headers : HttpRequest) : Response :=
  let host_header := get_host_header parseUriStr headers
  let new_uri_str := rewrite_uri https_port uri host_header
  if is_valid_header_value new_uri_str then
    ⟨301, "", some new_uri_str⟩
  else
    new_empty_resp 500

/-- The port suffix the rewriter emits: present exactly when the chosen
host source carried a port, and always showing the configured port. -/
def portSuffix (https_port : Nat) (srcPort : Option Nat) : String :=
  if srcPort.isSome then ":" ++ toString https_port else ""

/-- The query part: reattached with a single `?` when present. -/
def queryStr (q : Option String) : String :=
  match q with
  | some qs => "?" ++ qs
  | none => ""

/-- Spec-side rewriter, following the words of the specification: host by
fixed priority (URI authority, else Host header host), port suffix iff the
chosen source carried one (then always the configured port), path and query
copied verbatim with a single `?`. -/
def rewriteSpec (https_port : Nat) (uri : Uri) (host_header : Option Uri) : String :=
  let hostPart : String :=
    match uri.host with
    | some h => h ++ portSuffix https_port uri.port
    | none =>
        match host_header with
        | some hh =>
            match hh.host with
            | some h => h ++ portSuffix https_port hh.port
            | none => ""
        | none => ""
  "https://" ++ hostPart ++ uri.path ++ queryStr uri.query

theorem from_hex_to_hex (bs : List Nat) (h : ∀ b ∈ bs, b < 256) :
    from_hex (to_hex bs) = some bs := by
  simp only [from_hex, to_hex]
  exact fromHex_toHex bs h

/-- C2: for every password string and every salt string, verifying the
password against the hash derived from that same password and salt
succeeds: `verify(password, salt, derive(password, salt)) = true`. -/
theorem verify_password_eq_of_some {p s hx : String} {bs : List Nat}
    (h : from_hex hx = some bs) :
    verify_password p s hx = pbkdf2_verify pbdkf2_iterations (strBytes s) (strBytes p) bs := by
  simp [verify_password, h]

theorem verify_roundtrip (pass salt : String) :
    verify_password pass salt (store_password pass salt) = true := by
  have h := from_hex_to_hex _
    (@pbkdf2_derive_lt pbdkf2_iterations (strBytes salt) (strBytes pass))
  unfold store_password
  rw [verify_password_eq_of_some h]
  simp only [pbkdf2_verify]
  exact beq_self_eq_true _

/-- C7: a stored hash that is not valid hex verifies to `false` (fail
closed, no fault); one that decodes to the wrong length verifies to
`false`; and when decoding succeeds the verification is `true` exactly
when re-derivation under the same fixed parameters reproduces the decoded
bytes. -/
theorem verify_fail_closed (p s hx : String) :
    (from_hex hx = none → verify_password p s hx = false) ∧
    (∀ bs, from_hex hx = some bs →
      ((verify_password p s hx = true ↔
        pbkdf2_derive pbdkf2_iterations (strBytes s) (strBytes p) = bs) ∧
       (bs.length ≠ 32 → verify_password p s hx = false))) := by
  refine ⟨fun hn => by simp [verify_password, hn], fun bs hbs => ⟨?_, ?_⟩⟩
  · simp [verify_password, hbs, pbkdf2_verify]
  · intro hlen
    have hne : pbkdf2_derive pbdkf2_iterations (strBytes s) (strBytes p) ≠ bs := by
      intro he
      exact hlen (he ▸ pbkdf2_derive_length pbdkf2_iterations (strBytes s) (strBytes p))
    simp [verify_password, hbs, pbkdf2_verify, hne]

theorem verify_fail_closed_witness :
    from_hex "zz" = none ∧ verify_password "p" "s" "zz" = false :=
  ⟨by decide, (verify_fail_closed "p" "s" "zz").1 (by decide)⟩

/-- C1: when an admin identity is configured and the login username equals
the admin name, the outcome is `some (verify_password ...)` — decided
solely by the credential verifier against the salt and stored
hash — the directory-service collaborator is never consulted, and the
response is the session JSON on success and an empty `401` on failure. -/
theorem admin_branch_final (cfg : Config)
    (la : String → String → LdapConfig → Except String Bool)
    (sid : String) (req : LoginRequest) (admin : AdminIdentity)
    (hA : cfg.admin = some admin) (hN : admin.name = req.username) :
    (loginHandle cfg la sid req).ldapConsulted = false ∧
    (loginHandle cfg la sid req).outcome =
      some (verify_password req.password admin.salt admin.pass_hash) ∧
    (loginHandle cfg la sid req).resp =
      (if verify_password req.password admin.salt admin.pass_hash then
        new_json_resp (sessionJson sid)
      else new_empty_resp 401) := by
  cases hv : verify_password req.password admin.salt admin.pass_hash <;>
    simp [loginHandle, hA, hN, hv]

theorem admin_branch_final_witness :
    (⟨some ⟨"adm", "salt", "00"⟩, some ⟨"ldap://x"⟩⟩ : Config).admin =
      some ⟨"adm", "salt", "00"⟩ ∧
    (loginHandle ⟨some ⟨"adm", "salt", "00"⟩, some ⟨"ldap://x"⟩⟩
      (fun _ _ _ => Except.ok true) "sid" ⟨"adm", "pw"⟩).ldapConsulted = false :=
  ⟨rfl, (admin_branch_final _ (fun _ _ _ => Except.ok true) "sid" ⟨"adm", "pw"⟩
    ⟨"adm", "salt", "00"⟩ rfl rfl).1⟩

/-- C4: when the admin branch was not entered and the directory service is
consulted, an explicit rejection (`Ok(false)`) and a fault (`Err`) both
leave the outcome Unknown (`none`, not Rejected), with an empty `401`; and
every non-Authenticated outcome yields that same empty `401`. -/
theorem ldap_nonsuccess_unknown :
    (∀ (cfg : Config) (la : String → String → LdapConfig → Except String Bool)
        (sid : String) (req : LoginRequest) (l : LdapConfig) (e : String),
      (∀ a, cfg.admin = some a → a.name ≠ req.username) →
      cfg.ldap = some l →
      (la req.username req.password l = Except.ok false ∨
       la req.username req.password l = Except.error e) →
      (loginHandle cfg la sid req).ldapConsulted = true ∧
      (loginHandle cfg la sid req).outcome = none ∧
      (loginHandle cfg la sid req).resp = new_empty_resp 401) ∧
    (∀ (cfg : Config) (la : String → String → LdapConfig → Except String Bool)
        (sid : String) (req : LoginRequest),
      (loginHandle cfg la sid req).outcome ≠ some true →
      (loginHandle cfg la sid req).resp = new_empty_resp 401) := by
  constructor
  · intro cfg la sid req l e hAdm hLdap hRes
    cases hA : cfg.admin with
    | none => rcases hRes with h | h <;> simp [loginHandle, hA, hLdap, h]
    | some a =>
        have hne : a.name ≠ req.username := hAdm a hA
        rcases hRes with h | h <;> simp [loginHandle, hA, hLdap, hne, h]
  · intro cfg la sid req hOut
    have hr : (loginHandle cfg la sid req).resp =
        (if (loginHandle cfg la sid req).outcome == some true then
          new_json_resp (sessionJson sid)
        else new_empty_resp 401) := rfl
    rw [hr]
    simp [hOut]

theorem ldap_nonsuccess_unknown_witness :
    (⟨none, some ⟨"ldap://x"⟩⟩ : Config).ldap = some ⟨"ldap://x"⟩ ∧
    (loginHandle ⟨none, some ⟨"ldap://x"⟩⟩ (fun _ _ _ => Except.ok false)
      "sid" ⟨"u", "p"⟩).outcome = none :=
  ⟨rfl, (ldap_nonsuccess_unknown.1 ⟨none, some ⟨"ldap://x"⟩⟩
    (fun _ _ _ => Except.ok false) "sid" ⟨"u", "p"⟩ ⟨"ldap://x"⟩ "e"
    (fun a h => by simp at h) rfl (Or.inl rfl)).2.1⟩

/-- C6: the session-validating filter returns `Continue` (the request
passes through unchanged) exactly when the `session` header is present and
the store reports its value valid; in every other case it halts with the
fixed `403` "Invalid session" response, and the standalone session-check
handler applies the same rule, answering `200` with empty body when valid
and the identical `403` otherwise. -/
theorem session_gate_rule (st : Sessions) (req : HttpRequest) :
    ((∃ sess, get_session req = some sess ∧ is_valid_session st sess = true) →
      loginSessionFilter st req = FilterResult.Continue ∧
      sessionCheckHandle st req = respond_with 200 "") ∧
    ((¬ ∃ sess, get_session req = some sess ∧ is_valid_session st sess = true) →
      loginSessionFilter st req = FilterResult.Halt invalid_session ∧
      sessionCheckHandle st req = invalid_session) ∧
    invalid_session = ⟨403, "Invalid session", none⟩ := by
  refine ⟨?_, ?_, rfl⟩
  · rintro ⟨sess, hs, hv⟩
    simp [loginSessionFilter, sessionCheckHandle, hs, hv]
  · intro hn
    cases hg : get_session req with
    | none => simp [loginSessionFilter, sessionCheckHandle, hg]
    | some sess =>
        cases hv : is_valid_session st sess with
        | false => simp [loginSessionFilter, sessionCheckHandle, hg, hv]
        | true => exact absurd ⟨sess, hg, hv⟩ hn

theorem session_gate_rule_witness :
    (∃ sess, get_session ⟨[("session", [97, 98, 99])]⟩ = some sess ∧
      is_valid_session ["abc"] sess = true) ∧
    loginSessionFilter ["abc"] ⟨[("session", [97, 98, 99])]⟩ =
      FilterResult.Continue :=
  ⟨⟨"abc", by decide, by decide⟩,
   ((session_gate_rule ["abc"] ⟨[("session", [97, 98, 99])]⟩).1
     ⟨"abc", by decide, by decide⟩).1⟩

/-- C8: a logout request carrying a `session` header — valid or invalid
alike — removes that id from the store and answers `200` with JSON body
`{}`; a logout request with no `session` header answers `403` "Invalid
session" and leaves the store untouched. -/
theorem logout_behavior (st : Sessions) (req : HttpRequest) :
    (∀ sess, get_session req = some sess →
      logoutHandle st req = (new_json_resp "\x7b\x7d", remove_session st sess)) ∧
    (get_session req = none → logoutHandle st req = (invalid_session, st)) := by
  constructor
  · intro sess hs
    simp [logoutHandle, hs]
  · intro hn
    simp [logoutHandle, hn]

theorem logout_behavior_witness :
    get_session ⟨[("session", [97])]⟩ = some "a" ∧
    logoutHandle ["a", "b"] ⟨[("session", [97])]⟩ =
      (new_json_resp "\x7b\x7d", remove_session ["a", "b"] "a") :=
  ⟨by decide, (logout_behavior ["a", "b"] ⟨[("session", [97])]⟩).1 "a" (by decide)⟩

/-- C10: any present `session` header — including an empty or non-UTF-8
value — yields an id, namely its bytes decoded lossily as UTF-8; logout
then answers `200` `{}` removing the decoded string, and the check handler
and filter consult the store with that decoded value instead of taking the
missing-header `403` branch. -/
theorem session_header_lossy (req : HttpRequest) (bs : List Nat)
    (h : headerGet req "session" = some bs) :
    get_session req = some (utf8Lossy bs) ∧
    (∀ st : Sessions, logoutHandle st req =
      (new_json_resp "\x7b\x7d", remove_session st (utf8Lossy bs))) ∧
    (∀ st : Sessions, sessionCheckHandle st req =
      (if is_valid_session st (utf8Lossy bs) then respond_with 200 ""
       else invalid_session)) ∧
    (∀ st : Sessions, loginSessionFilter st req =
      (if is_valid_session st (utf8Lossy bs) then FilterResult.Continue
       else FilterResult.Halt invalid_session)) := by
  have hg : get_session req = some (utf8Lossy bs) := by
    simp [get_session, h]
  refine ⟨hg, fun st => ?_, fun st => ?_, fun st => ?_⟩ <;>
    simp [logoutHandle, sessionCheckHandle, loginSessionFilter, hg]

theorem session_header_lossy_witness :
    headerGet ⟨[("session", [])]⟩ "session" = some [] ∧
    get_session ⟨[("session", [])]⟩ = some "" ∧
    logoutHandle [] ⟨[("session", [])]⟩ =
      (new_json_resp "\x7b\x7d", remove_session [] "") ∧
    get_session ⟨[("session", [255])]⟩ = some (utf8Lossy [255]) := by
  have h := session_header_lossy ⟨[("session", [])]⟩ [] (by decide)
  have h2 := session_header_lossy ⟨[("session", [255])]⟩ [255] (by decide)
  exact ⟨by decide, by rw [h.1]; decide, h.2.1 [], h2.1⟩

/-- C3: the rewritten URL carries an explicit `:port` suffix exactly when
the chosen host source (URI authority, else Host header) itself carried an
explicit port, and the emitted port is then always the configured HTTPS
port, never the port number of the request; a source without a port (or no host
source at all) yields no port suffix. -/
theorem port_substitution (p : Nat) (uri : Uri) (hh : Option Uri) :
    (∀ h, uri.host = some h →
      rewrite_uri p uri hh =
        "https://" ++ h ++ portSuffix p uri.port ++ uri.path ++ queryStr uri.query) ∧
    (uri.host = none → ∀ u h, hh = some u → u.host = some h →
      rewrite_uri p uri hh =
        "https://" ++ h ++ portSuffix p u.port ++ uri.path ++ queryStr uri.query) ∧
    (uri.host = none → (∀ u, hh = some u → u.host = none) →
      rewrite_uri p uri hh = "https://" ++ uri.path ++ queryStr uri.query) := by
  refine ⟨?_, ?_, ?_⟩
  · intro h hhost
    cases hp : uri.port <;> cases hq : uri.query <;>
      simp [rewrite_uri, maybe_add_port, portSuffix, queryStr, hhost, hp, hq,
        String.append_assoc]
  · intro hhost u h hu hhost2
    subst hu
    cases hp : u.port <;> cases hq : uri.query <;>
      simp [rewrite_uri, maybe_add_port, portSuffix, queryStr, hhost, hhost2,
        hp, hq, String.append_assoc]
  · intro hhost hnone
    cases hh with
    | none =>
        cases hq : uri.query <;>
          simp [rewrite_uri, maybe_add_port, portSuffix, queryStr, hhost, hq,
            String.append_assoc]
    | some u =>
        have hu : u.host = none := hnone u rfl
        cases hq : uri.query <;>
          simp [rewrite_uri, maybe_add_port, portSuffix, queryStr, hhost, hu,
            hq, String.append_assoc]

theorem port_substitution_witness :
    (⟨some "host.foo.com", some 20, "/path", none⟩ : Uri).host =
      some "host.foo.com" ∧
    rewrite_uri 99 ⟨some "host.foo.com", some 20, "/path", none⟩ none =
      "https://host.foo.com:99/path" := by
  have h := (port_substitution 99 ⟨some "host.foo.com", some 20, "/path", none⟩
    none).1 "host.foo.com" rfl
  exact ⟨rfl, by rw [h]; decide⟩

/-- C9: the rewriter refines the spec-side description — host chosen by
fixed priority (URI authority, else the host of the Host header), path and
query copied verbatim with the query reattached by a single `?` and no
re-encoding. -/
theorem rewrite_refines_spec (p : Nat) (uri : Uri) (hh : Option Uri) :
    rewrite_uri p uri hh = rewriteSpec p uri hh := by
  cases hhost : uri.host with
  | some h =>
      cases hp : uri.port <;> cases hq : uri.query <;>
        simp [rewrite_uri, rewriteSpec, maybe_add_port, portSuffix, queryStr,
          hhost, hp, hq, String.append_assoc]
  | none =>
      cases hh with
      | none =>
          cases hq : uri.query <;>
            simp [rewrite_uri, rewriteSpec, maybe_add_port, portSuffix,
              queryStr, hhost, hq, String.append_assoc]
      | some u =>
          cases hu : u.host with
          | some h2 =>
              cases hp : u.port <;> cases hq : uri.query <;>
                simp [rewrite_uri, rewriteSpec, maybe_add_port, portSuffix,
                  queryStr, hhost, hu, hp, hq, String.append_assoc]
          | none =>
              cases hq : uri.query <;>
                simp [rewrite_uri, rewriteSpec, maybe_add_port, portSuffix,
                  queryStr, hhost, hu, hq, String.append_assoc]

/-- C5 counterexample: a plaintext request whose URI has no authority and
which carries no Host header is NOT answered with a `500`; the handler
emits a `301` whose `Location` is the host-less string `https:///p`. -/
theorem missing_host_counterexample :
    redirectHandle 99 (fun _ => none) ⟨none, none, "/p", none⟩ ⟨[]⟩ =
      ⟨301, "", some "https:///p"⟩ := by decide

/-- C5 amended: when neither the URI authority nor the Host header yields a
host, the computed URL is the host-less `https://` ++ path ++ query; since
such a string still passes header-value validation whenever its characters
are visible, the handler answers `301` with it in `Location`, and `500`
only when that validation fails. -/
theorem missing_host_redirect (p : Nat) (pf : String → Option Uri)
    (uri : Uri) (headers : HttpRequest)
    (hu : uri.host = none)
    (hhh : ∀ u, get_host_header pf headers = some u → u.host = none) :
    redirectHandle p pf uri headers =
      (if is_valid_header_value ("https://" ++ uri.path ++ queryStr uri.query) then
        ⟨301, "", some ("https://" ++ uri.path ++ queryStr uri.query)⟩
      else new_empty_resp 500) := by
  have hrw : rewrite_uri p uri (get_host_header pf headers) =
      "https://" ++ uri.path ++ queryStr uri.query := by
    cases hg : get_host_header pf headers with
    | none =>
        cases hq : uri.query <;>
          simp [rewrite_uri, queryStr, hu, hq, String.append_assoc]
    | some u =>
        have hu2 := hhh u hg
        cases hq : uri.query <;>
          simp [rewrite_uri, queryStr, hu, hu2, hq, String.append_assoc]
  simp [redirectHandle, hrw]

theorem missing_host_redirect_witness :
    (⟨none, none, "/p", none⟩ : Uri).host = none ∧
    redirectHandle 99 (fun _ => none) ⟨none, none, "/p", none⟩ ⟨[]⟩ =
      (if is_valid_header_value ("https://" ++ "/p" ++ queryStr none) then
        ⟨301, "", some ("https://" ++ "/p" ++ queryStr none)⟩
      else new_empty_resp 500) :=
  ⟨rfl, missing_host_redirect 99 (fun _ => none) ⟨none, none, "/p", none⟩ ⟨[]⟩
    rfl (fun u h => by simp [get_host_header, headerGet] at h)⟩

end Octobot
